import Mathlib

/-!
Verification of the gencomp tool (src/main.rs): conversion of a
c_cpp_properties.json configuration into a compile_commands.json database.

The development shallowly embeds the core logic of `main` and of
`remove_comments`:
* `GenComp.Json` models `serde_json::Value` (numbers as `Int`; no claim
  inspects numeric values).
* `GenComp.remove_comments` models the Rust function built on the regex
  `//.*?$|/\*.*?\*/` with the regex crate's DEFAULT flags: `$` matches only
  at the very end of the haystack (no multi-line flag) and `.` never matches
  a newline (no dot-all flag); `replace_all` removes the leftmost-first,
  non-overlapping, lazily-extended matches.
* `GenComp.run` models the body of `main` after the input file has been read
  and parsed, with the filesystem abstracted as a map from paths to
  `FileRead` (missing / unparsable / parsed JSON) and the current working
  directory as a parameter.  `Except.error e` models `process::exit(1)`
  reached before the output file is written, so an error result entails that
  no output file is produced.
-/

namespace GenComp

/-- Model of `serde_json::Value`. -/
inductive Json where
  | null
  | bool (b : Bool)
  | num (n : Int)
  | str (s : String)
  | arr (elems : List Json)
  | obj (fields : List (String × Json))

/-- `Value::get(key)`: field lookup; mirrors serde's `Value::get`, which
returns `None` when the value is not an object. -/
def Json.get : Json → String → Option Json
  | .obj fields, key => List.lookup key fields
  | _, _ => none

/-- `Value::as_array`. -/
def Json.as_array : Json → Option (List Json)
  | .arr elems => some elems
  | _ => none

/-- `Value::as_str`. -/
def Json.as_str : Json → Option String
  | .str s => some s
  | _ => none

/-- `Value::is_string`. -/
def Json.is_string : Json → Bool
  | .str _ => true
  | _ => false

/-- Outcome of reading-and-parsing one referenced database file:
the file may be missing, may fail to parse as JSON, or parses to a value. -/
inductive FileRead where
  | missing
  | unparsable
  | parsed (j : Json)

/-- One constructor per `process::exit(1)` site reachable from the core logic
of `main` (input-file reading excluded: it happens before the modelled code). -/
inductive RunError where
  | noConfigurations
  | configurationsNotFound
  | unexpectedStructure
  | compileCommandsNotArray
  | referencedParseFailure (path : String)
  | invalidReferencedDatabase (path : String)
  | noSourcesProvided
  | missingCompilerPath
deriving DecidableEq

/-- The merge-referenced loop (main.rs lines 82-104): for each element of the
`compileCommands` array, non-strings are skipped silently; a missing file is
skipped with a warning; an unreadable/unparsable file or a file whose parsed
content is not a JSON array aborts the run. -/
def mergeReferenced (fs : String → FileRead) : List Json → Except RunError (List Json)
  | [] => .ok []
  | v :: rest =>
    match v.as_str with
    | none => mergeReferenced fs rest
    | some path =>
      match fs path with
      | .missing => mergeReferenced fs rest
      | .unparsable => .error (.referencedParseFailure path)
      | .parsed j =>
        match j.as_array with
        | some entries => (mergeReferenced fs rest).map (fun tail => entries ++ tail)
        | none => .error (.invalidReferencedDatabase path)

/-- The command string of a generated entry (main.rs lines 153-166):
`format!("{} {} {} --std={} -c {}", compiler_path, include_flags, define_flags,
cpp_standard, source)` where the flag groups are internally space-joined. -/
def makeCommand (compilerPath : String) (includePaths defines : List String)
    (cppStandard source : String) : String :=
  let include_flags := String.intercalate " " (includePaths.map (fun p => "-I" ++ p))
  let define_flags := String.intercalate " " (defines.map (fun d => "-D" ++ d))
  compilerPath ++ " " ++ include_flags ++ " " ++ define_flags ++ " --std=" ++
    cppStandard ++ " -c " ++ source

/-- One generated entry (main.rs lines 167-171). -/
def makeEntry (cwd command source : String) : Json :=
  .obj [("directory", .str cwd), ("command", .str command), ("file", .str source)]

/-- Generate mode (main.rs lines 115-172): requires a non-empty source list,
then a string `compilerPath`; `includePath` and `defines` default to empty and
silently drop non-string elements; `cppStandard` defaults to `""`. -/
def generateEntries (config : Json) (sources : List String) (cwd : String) :
    Except RunError (List Json) :=
  if sources = [] then .error .noSourcesProvided
  else
    match (config.get "compilerPath").bind Json.as_str with
    | none => .error .missingCompilerPath
    | some compilerPath =>
      let includePaths :=
        (((config.get "includePath").bind Json.as_array).map
          (fun xs => xs.filterMap Json.as_str)).getD []
      let defines :=
        (((config.get "defines").bind Json.as_array).map
          (fun xs => xs.filterMap Json.as_str)).getD []
      let cppStandard := ((config.get "cppStandard").bind Json.as_str).getD ""
      .ok (sources.map (fun source =>
        makeEntry cwd (makeCommand compilerPath includePaths defines cppStandard source) source))

/-- Processing of the selected (first) configuration (main.rs lines 74-173). -/
def processConfig (config : Json) (sources : List String) (fs : String → FileRead)
    (cwd : String) : Except RunError (List Json) :=
  match config.get "compileCommands" with
  | some cc =>
    match cc.as_array with
    | none => .error .compileCommandsNotArray
    | some ccArr =>
      match ccArr with
      | [] => .ok []
      | first :: rest =>
        if first.is_string then mergeReferenced fs (first :: rest)
        else .ok (first :: rest)
  | none => generateEntries config sources cwd

/-- The core of `main` (main.rs lines 57-181), from the parsed input value to
the output database or the fatal error. -/
def run (data : Json) (sources : List String) (fs : String → FileRead)
    (cwd : String) : Except RunError (List Json) :=
  match data with
  | .arr entries => .ok entries
  | .obj fields =>
    match ((Json.obj fields).get "configurations").bind Json.as_array with
    | none => .error .configurationsNotFound
    | some [] => .error .noConfigurations
    | some (config :: _) => processConfig config sources fs cwd
  | _ => .error .unexpectedStructure

/-- The lazy tail of the block-comment alternative `/\*.*?\*/` starting right
after the opening `/*`: since `.` does not match a newline, the match closes at
the FIRST following `*/`, and fails if a newline occurs before any `*/`.
Returns the suffix after the closing `*/` on success. -/
def findBlockEnd : List Char → Option (List Char)
  | '*' :: '/' :: rest => some rest
  | '\n' :: _ => none
  | _ :: rest => findBlockEnd rest
  | [] => none

/-- `Regex::replace_all` for `//.*?$|/\*.*?\*/` with default flags, as a scan
over the remaining haystack (`fuel` bounds the recursion; `fuel ≥ length`
suffices because every step shortens the list).  At each position, the
line-comment alternative matches iff the two next characters are `//` and no
newline follows before the end of the haystack (`$` only matches there), in
which case the match extends to the end; the block-comment alternative matches
per `findBlockEnd`.  The two alternatives require distinct second characters,
so the alternation order is immaterial; leftmost-first search is the
position-by-position scan. -/
def stripFuel : Nat → List Char → List Char
  | 0, _ => []
  | _ + 1, [] => []
  | fuel + 1, '/' :: '/' :: rest =>
    if rest.contains '\n' then '/' :: stripFuel fuel ('/' :: rest)
    else []
  | fuel + 1, '/' :: '*' :: rest =>
    match findBlockEnd rest with
    | some rest2 => stripFuel fuel rest2
    | none => '/' :: stripFuel fuel ('*' :: rest)
  | fuel + 1, c :: rest => c :: stripFuel fuel rest

/-- Model of `remove_comments` (main.rs lines 31-34). -/
def remove_comments (text : String) : String :=
  ⟨stripFuel text.data.length text.data⟩

/-- The output the spec prescribes for MERGE-REFERENCED (spec section 4.4):
the entries of the existing referenced files, concatenated in reference-list
order with each file's entries in file order; non-string elements and missing
files are skipped.  Written from the spec's words, to be compared with
`mergeReferenced`. -/
def specMergedOutput (fs : String → FileRead) : List Json → List Json
  | [] => []
  | v :: rest =>
    match v.as_str with
    | none => specMergedOutput fs rest
    | some p =>
      match fs p with
      | .parsed (.arr entries) => entries ++ specMergedOutput fs rest
      | _ => specMergedOutput fs rest

/-! ## Helper lemmas -/

/-- Extracting `file` from a generated entry. -/
theorem makeEntry_file (cwd command source : String) :
    (makeEntry cwd command source).get "file" = some (.str source) := rfl

/-- Extraction with `filter_map(Value::as_str)` keeps an all-string array
intact. -/
theorem filterMap_as_str_map_str (xs : List String) :
    List.filterMap (Json.as_str ∘ Json.str) xs = xs := by
  induction xs with
  | nil => rfl
  | cons x xs ih => simp [Json.as_str, ih]

/-- When every string element of the list refers to a file that is either
missing or parses to a JSON array, the merge loop succeeds and returns the
spec-prescribed concatenation. -/
theorem mergeReferenced_eq_spec (fs : String → FileRead) (l : List Json)
    (h : ∀ p, Json.str p ∈ l → fs p = .missing ∨ ∃ es, fs p = .parsed (.arr es)) :
    mergeReferenced fs l = .ok (specMergedOutput fs l) := by
  induction l with
  | nil => rfl
  | cons v rest ih =>
    have hrest : ∀ p, Json.str p ∈ rest → fs p = .missing ∨ ∃ es, fs p = .parsed (.arr es) :=
      fun p hp => h p (List.mem_cons_of_mem v hp)
    cases v with
    | str p =>
      rcases h p (List.mem_cons_self (Json.str p) rest) with hm | ⟨es, hes⟩
      · simp [mergeReferenced, specMergedOutput, Json.as_str, hm, ih hrest]
      · simp [mergeReferenced, specMergedOutput, Json.as_str, hes, Json.as_array,
          ih hrest, Except.map]
    | null => simp [mergeReferenced, specMergedOutput, Json.as_str, ih hrest]
    | bool b => simp [mergeReferenced, specMergedOutput, Json.as_str, ih hrest]
    | num n => simp [mergeReferenced, specMergedOutput, Json.as_str, ih hrest]
    | arr elems => simp [mergeReferenced, specMergedOutput, Json.as_str, ih hrest]
    | obj fields => simp [mergeReferenced, specMergedOutput, Json.as_str, ih hrest]

/-- With a filesystem on which every path is missing, the merge loop returns
the empty database. -/
theorem mergeReferenced_all_missing (fs : String → FileRead)
    (hfs : ∀ q, fs q = .missing) (l : List Json) :
    mergeReferenced fs l = .ok [] := by
  induction l with
  | nil => rfl
  | cons v rest ih =>
    cases v with
    | str p => simp [mergeReferenced, Json.as_str, hfs p, ih]
    | null => simp [mergeReferenced, Json.as_str, ih]
    | bool b => simp [mergeReferenced, Json.as_str, ih]
    | num n => simp [mergeReferenced, Json.as_str, ih]
    | arr elems => simp [mergeReferenced, Json.as_str, ih]
    | obj fields => simp [mergeReferenced, Json.as_str, ih]

/-- Unfolding `run` on an object input down to the configuration processing. -/
theorem run_obj (fields : List (String × Json)) (config : Json) (restCfgs : List Json)
    (sources : List String) (fs : String → FileRead) (cwd : String)
    (hconfigs : Json.get (.obj fields) "configurations" = some (.arr (config :: restCfgs))) :
    run (.obj fields) sources fs cwd = processConfig config sources fs cwd := by
  simp [run, hconfigs, Json.as_array]

/-! ## Claim theorems -/

/-- C1: fails on the code (code bug).  `remove_comments` builds its regex
without the multi-line flag (so `$` matches only at the very end of the input,
and a `//` comment on any line but the last is not removed — the claim expects
`"x \ny"`) and without the dot-all flag (so `.` never matches a newline and a
block comment spanning multiple lines is never removed — the claim expects
`"c"`).  Both inputs are returned unchanged, contradicting the function's own
doc comment ("Remove both single-line and multi-line comments"). -/
theorem remove_comments_misses_comments :
    remove_comments "x //c\ny" = "x //c\ny" ∧
      remove_comments "/*a\nb*/c" = "/*a\nb*/c" ∧
      ("x //c\ny" : String) ≠ "x \ny" ∧ ("/*a\nb*/c" : String) ≠ "c" :=
  ⟨rfl, rfl, by decide, by decide⟩

/-- C8: fails on the code (code bug, same root cause as C1).  On
`"//**/**/\n"` the un-flagged regex does not treat `//...` as a line comment
(a newline follows before the end of the haystack), instead removes the inner
block `/**/`, and thereby splices the remaining text into a new block comment:
one pass gives `"/**/\n"`, a second pass gives `"\n"`, so stripping an
already-stripped text does not yield the same text. -/
theorem remove_comments_not_idempotent :
    remove_comments "//**/**/\n" = "/**/\n" ∧
      remove_comments (remove_comments "//**/**/\n") = "\n" ∧
      remove_comments (remove_comments "//**/**/\n") ≠ remove_comments "//**/**/\n" :=
  ⟨rfl, rfl, by decide⟩

/-- C4: whenever the first configuration's `compileCommands` field is a JSON
array whose first element is not a string, the output database is exactly that
array — same elements, same order, verbatim (main.rs lines 105-108). -/
theorem merge_embedded_copies_array_verbatim (fields : List (String × Json))
    (config : Json) (restCfgs : List Json) (first : Json) (restArr : List Json)
    (sources : List String) (fs : String → FileRead) (cwd : String)
    (hconfigs : Json.get (.obj fields) "configurations" = some (.arr (config :: restCfgs)))
    (hcc : config.get "compileCommands" = some (.arr (first :: restArr)))
    (hfirst : first.is_string = false) :
    run (.obj fields) sources fs cwd = .ok (first :: restArr) := by
  rw [run_obj fields config restCfgs sources fs cwd hconfigs]
  simp [processConfig, hcc, Json.as_array, hfirst]

/-- C4 witness: a two-element embedded array whose first element is an object
is copied verbatim (even though its second element is a string). -/
theorem merge_embedded_copies_array_verbatim_witness :
    run (.obj [("configurations", .arr [.obj [("compileCommands",
        .arr [.obj [("file", .str "a.c")], .str "weird"])]])])
      ["ignored.c"] (fun _ => .missing) "." =
      .ok [.obj [("file", .str "a.c")], .str "weird"] :=
  merge_embedded_copies_array_verbatim _ _ _ _ _ _ _ _ rfl rfl rfl

/-- C6: a parsed input object whose `configurations` array is empty fails
fatally with the no-configurations error (main.rs lines 66-69); the error
result models `process::exit(1)` before the output file is written, so no
output file is produced. -/
theorem empty_configurations_is_fatal (fields : List (String × Json))
    (sources : List String) (fs : String → FileRead) (cwd : String)
    (h : Json.get (.obj fields) "configurations" = some (.arr [])) :
    run (.obj fields) sources fs cwd = .error .noConfigurations := by
  simp [run, h, Json.as_array]

/-- C6 witness. -/
theorem empty_configurations_is_fatal_witness :
    run (.obj [("configurations", .arr [])]) [] (fun _ => .missing) "." =
      .error .noConfigurations :=
  empty_configurations_is_fatal _ _ _ _ rfl

/-- C9: when the first configuration's `compileCommands` field is an empty
JSON array, the guard `!arr.is_empty() && arr[0].is_string()` (main.rs line
80) is false, so the run takes the embedded-copy branch: it succeeds, ignores
any supplied source files, and outputs the empty database — it neither falls
back to GENERATE mode nor fails. -/
theorem empty_compileCommands_array_yields_empty_db (fields : List (String × Json))
    (config : Json) (restCfgs : List Json) (sources : List String)
    (fs : String → FileRead) (cwd : String)
    (hconfigs : Json.get (.obj fields) "configurations" = some (.arr (config :: restCfgs)))
    (hcc : config.get "compileCommands" = some (.arr [])) :
    run (.obj fields) sources fs cwd = .ok [] := by
  rw [run_obj fields config restCfgs sources fs cwd hconfigs]
  simp [processConfig, hcc, Json.as_array]

/-- C9 witness: sources are supplied yet ignored, and the output is empty. -/
theorem empty_compileCommands_array_yields_empty_db_witness :
    run (.obj [("configurations", .arr [.obj [("compileCommands", .arr []),
        ("compilerPath", .str "/usr/bin/gcc")]])])
      ["main.c"] (fun _ => .missing) "." = .ok [] :=
  empty_compileCommands_array_yields_empty_db _ _ _ _ _ _ rfl rfl

/-- C10: when the first configuration's `compileCommands` field is present but
is not a JSON array, the run terminates fatally (main.rs lines 109-112); the
error result models `process::exit(1)` before the output file is written, so
no output file is produced. -/
theorem nonarray_compileCommands_is_fatal (fields : List (String × Json))
    (config : Json) (restCfgs : List Json) (cc : Json) (sources : List String)
    (fs : String → FileRead) (cwd : String)
    (hconfigs : Json.get (.obj fields) "configurations" = some (.arr (config :: restCfgs)))
    (hcc : config.get "compileCommands" = some cc)
    (hna : cc.as_array = none) :
    run (.obj fields) sources fs cwd = .error .compileCommandsNotArray := by
  rw [run_obj fields config restCfgs sources fs cwd hconfigs]
  simp [processConfig, hcc, hna]

/-- C10 witness: a string-valued `compileCommands` field is fatal. -/
theorem nonarray_compileCommands_is_fatal_witness :
    run (.obj [("configurations",
        .arr [.obj [("compileCommands", .str "compile_commands.json")]])])
      [] (fun _ => .missing) "." = .error .compileCommandsNotArray :=
  nonarray_compileCommands_is_fatal _ _ _ _ _ _ _ rfl rfl rfl

/-- C2 counterexample: with `includePath` and `defines` both empty, the
`format!("{} {} {} --std={} -c {}", ...)` template keeps the separating spaces
around the now-empty flag groups, so the command is
`"/usr/bin/gcc   --std=c11 -c main.c"` (three consecutive spaces), not the
single-spaced concatenation `"/usr/bin/gcc --std=c11 -c main.c"` the claim
prescribes. -/
theorem command_not_single_spaced_when_flag_lists_empty :
    run (.obj [("configurations", .arr [.obj [("compilerPath", .str "/usr/bin/gcc"),
        ("includePath", .arr []), ("defines", .arr []),
        ("cppStandard", .str "c11")]])])
      ["main.c"] (fun _ => .missing) "." =
      .ok [.obj [("directory", .str "."),
        ("command", .str "/usr/bin/gcc   --std=c11 -c main.c"),
        ("file", .str "main.c")]] ∧
      ("/usr/bin/gcc   --std=c11 -c main.c" : String) ≠
        "/usr/bin/gcc --std=c11 -c main.c" :=
  ⟨rfl, by decide⟩

/-- C2 (amended): in every GENERATE-mode run the command equals
`compilerPath ⧺ " " ⧺ (space-joined -I flags) ⧺ " " ⧺ (space-joined -D flags)
⧺ " --std=" ⧺ standard ⧺ " -c " ⧺ source`; when the include and define lists
are both non-empty this coincides with the claim's space-separated token
concatenation (in particular the gcc example holds, see the witness), but an
empty list contributes an empty group between two mandatory spaces. -/
theorem generate_command_shape (fields : List (String × Json))
    (config : Json) (restCfgs : List Json) (sources : List String)
    (fs : String → FileRead) (cwd : String) (cp std : String)
    (incs defs : List String)
    (hconfigs : Json.get (.obj fields) "configurations" = some (.arr (config :: restCfgs)))
    (hcc : config.get "compileCommands" = none)
    (hcp : config.get "compilerPath" = some (.str cp))
    (hinc : config.get "includePath" = some (.arr (incs.map .str)))
    (hdef : config.get "defines" = some (.arr (defs.map .str)))
    (hstd : config.get "cppStandard" = some (.str std))
    (hs : sources ≠ []) :
    run (.obj fields) sources fs cwd = .ok (sources.map (fun source =>
      .obj [("directory", .str cwd),
        ("command", .str (cp ++ " " ++
          String.intercalate " " (incs.map (fun p => "-I" ++ p)) ++ " " ++
          String.intercalate " " (defs.map (fun d => "-D" ++ d)) ++ " --std=" ++
          std ++ " -c " ++ source)),
        ("file", .str source)])) := by
  rw [run_obj fields config restCfgs sources fs cwd hconfigs]
  simp [processConfig, hcc, generateEntries, if_neg hs, hcp, hinc, hdef, hstd,
    Json.as_str, Json.as_array, filterMap_as_str_map_str, makeEntry, makeCommand]

/-- C2 witness: the spec's example configuration yields exactly the example
command (include and define lists non-empty, so the spacing is single). -/
theorem generate_command_shape_witness :
    run (.obj [("configurations", .arr [.obj [("compilerPath", .str "/usr/bin/gcc"),
        ("includePath", .arr [.str "/usr/include"]),
        ("defines", .arr [.str "DEBUG"]),
        ("cppStandard", .str "c11")]])])
      ["main.c"] (fun _ => .missing) "/work" =
      .ok [.obj [("directory", .str "/work"),
        ("command", .str "/usr/bin/gcc -I/usr/include -DDEBUG --std=c11 -c main.c"),
        ("file", .str "main.c")]] := by
  exact generate_command_shape _ _ _ ["main.c"] _ _ "/usr/bin/gcc" "c11"
    ["/usr/include"] ["DEBUG"] rfl rfl rfl rfl rfl rfl (by decide)

/-- C3: in every GENERATE-mode run (no `compileCommands` field, a string
`compilerPath`, non-empty source list) the number of output entries equals the
number of supplied source files, and the i-th entry's `file` field is the i-th
supplied source path unmodified (main.rs lines 152-172 iterate the source list
in order, pushing one entry per source). -/
theorem generate_entry_count_and_file_fields (fields : List (String × Json))
    (config : Json) (restCfgs : List Json) (sources : List String)
    (fs : String → FileRead) (cwd : String) (cp : String)
    (hconfigs : Json.get (.obj fields) "configurations" = some (.arr (config :: restCfgs)))
    (hcc : config.get "compileCommands" = none)
    (hcp : (config.get "compilerPath").bind Json.as_str = some cp)
    (hs : sources ≠ []) :
    ∃ entries, run (.obj fields) sources fs cwd = .ok entries ∧
      entries.length = sources.length ∧
      ∀ i, i < sources.length →
        (entries.getD i .null).get "file" = some (.str (sources.getD i "")) := by
  rw [run_obj fields config restCfgs sources fs cwd hconfigs]
  simp only [processConfig, hcc, generateEntries, if_neg hs, hcp]
  refine ⟨_, rfl, by simp, ?_⟩
  intro i hi
  rw [List.getD_eq_getElem?_getD, List.getD_eq_getElem?_getD, List.getElem?_map,
    List.getElem?_eq_getElem hi]
  simp [makeEntry_file]

/-- C3 witness: two sources give two entries with matching `file` fields. -/
theorem generate_entry_count_and_file_fields_witness :
    0 < 2 ∧ 1 < 2 ∧
    ∃ entries, run (.obj [("configurations", .arr [.obj [("compilerPath",
        .str "/usr/bin/gcc")]])]) ["a.c", "b.c"] (fun _ => .missing) "." = .ok entries ∧
      entries.length = 2 ∧
      ∀ i, i < 2 →
        (entries.getD i .null).get "file" = some (.str (["a.c", "b.c"].getD i "")) :=
  ⟨by decide, by decide,
    generate_entry_count_and_file_fields _ _ _ ["a.c", "b.c"] _ _ "/usr/bin/gcc"
      rfl rfl rfl (by decide)⟩

/-- C5: in MERGE-REFERENCED mode, (1) when every referenced path is either
missing or parses to a JSON array, missing files are skipped non-fatally and
the run succeeds with exactly the entries of the existing referenced files,
concatenated in reference-list order with each file's entries in file order;
and (2) a referenced file whose parsed content is not a JSON array terminates
the run fatally with the invalid-referenced-database error. -/
theorem merge_referenced_skips_missing_and_rejects_nonarray :
    (∀ fields config restCfgs first restArr sources fs cwd,
      Json.get (.obj fields) "configurations" = some (.arr (config :: restCfgs)) →
      config.get "compileCommands" = some (.arr (first :: restArr)) →
      first.is_string = true →
      (∀ p, Json.str p ∈ first :: restArr →
        fs p = .missing ∨ ∃ es, fs p = .parsed (.arr es)) →
      run (.obj fields) sources fs cwd = .ok (specMergedOutput fs (first :: restArr))) ∧
    (∀ fields config restCfgs p restArr sources fs cwd j,
      Json.get (.obj fields) "configurations" = some (.arr (config :: restCfgs)) →
      config.get "compileCommands" = some (.arr (.str p :: restArr)) →
      fs p = .parsed j → j.as_array = none →
      run (.obj fields) sources fs cwd = .error (.invalidReferencedDatabase p)) := by
  constructor
  · intro fields config restCfgs first restArr sources fs cwd hconfigs hcc hfirst hok
    rw [run_obj fields config restCfgs sources fs cwd hconfigs]
    simp only [processConfig, hcc, Json.as_array, hfirst, if_true]
    exact mergeReferenced_eq_spec fs (first :: restArr) hok
  · intro fields config restCfgs p restArr sources fs cwd j hconfigs hcc hread hna
    rw [run_obj fields config restCfgs sources fs cwd hconfigs]
    simp only [processConfig, hcc, Json.as_array, Json.is_string, if_true]
    simp only [mergeReferenced, Json.as_str, hread, hna]

/-- C5 witness: three references with the middle file missing give exactly the
two existing files' entries in order, and a reference parsing to an object is
fatal. -/
theorem merge_referenced_skips_missing_and_rejects_nonarray_witness :
    run (.obj [("configurations", .arr [.obj [("compileCommands",
        .arr [.str "one.json", .str "two.json", .str "three.json"])]])]) []
      (fun q => if q = "one.json" then .parsed (.arr [.obj [("file", .str "a.c")]])
        else if q = "three.json" then .parsed (.arr [.obj [("file", .str "c.c")]])
        else .missing) "." =
      .ok [.obj [("file", .str "a.c")], .obj [("file", .str "c.c")]] ∧
    run (.obj [("configurations", .arr [.obj [("compileCommands",
        .arr [.str "bad.json"])]])]) [] (fun _ => .parsed (.obj [])) "." =
      .error (.invalidReferencedDatabase "bad.json") := by
  constructor
  · exact merge_referenced_skips_missing_and_rejects_nonarray.1
      [("configurations", .arr [.obj [("compileCommands",
        .arr [.str "one.json", .str "two.json", .str "three.json"])]])]
      (.obj [("compileCommands",
        .arr [.str "one.json", .str "two.json", .str "three.json"])]) []
      (.str "one.json") [.str "two.json", .str "three.json"] []
      (fun q => if q = "one.json" then .parsed (.arr [.obj [("file", .str "a.c")]])
        else if q = "three.json" then .parsed (.arr [.obj [("file", .str "c.c")]])
        else .missing) "."
      rfl rfl rfl (by
        intro p hp
        simp only [List.mem_cons, List.not_mem_nil, or_false, Json.str.injEq] at hp
        rcases hp with h | h | h <;> subst h
        · exact Or.inr ⟨[.obj [("file", .str "a.c")]], rfl⟩
        · exact Or.inl rfl
        · exact Or.inr ⟨[.obj [("file", .str "c.c")]], rfl⟩)
  · exact merge_referenced_skips_missing_and_rejects_nonarray.2
      [("configurations", .arr [.obj [("compileCommands", .arr [.str "bad.json"])]])]
      (.obj [("compileCommands", .arr [.str "bad.json"])]) [] "bad.json" [] []
      (fun _ => .parsed (.obj [])) "." (.obj [])
      rfl rfl rfl rfl

/-- C7: the absence of a (string) `compilerPath` is fatal exactly when
GENERATE mode executes (main.rs lines 121-124): a run resolving to
PASS-THROUGH, MERGE-EMBEDDED, or MERGE-REFERENCED succeeds with no
`compilerPath` field at all — the requirement is checked at the point
generation is attempted, not eagerly at extraction. -/
theorem compilerPath_checked_only_in_generate :
    (∀ fields config restCfgs sources fs cwd,
      Json.get (.obj fields) "configurations" = some (.arr (config :: restCfgs)) →
      config.get "compileCommands" = none →
      config.get "compilerPath" = none →
      sources ≠ [] →
      run (.obj fields) sources fs cwd = .error .missingCompilerPath) ∧
    (∀ entries sources fs cwd,
      run (.arr entries) sources fs cwd = .ok entries) ∧
    (∀ fields config restCfgs first restArr sources fs cwd,
      Json.get (.obj fields) "configurations" = some (.arr (config :: restCfgs)) →
      config.get "compilerPath" = none →
      config.get "compileCommands" = some (.arr (first :: restArr)) →
      first.is_string = false →
      run (.obj fields) sources fs cwd = .ok (first :: restArr)) ∧
    (∀ fields config restCfgs p restArr sources fs cwd,
      Json.get (.obj fields) "configurations" = some (.arr (config :: restCfgs)) →
      config.get "compilerPath" = none →
      config.get "compileCommands" = some (.arr (.str p :: restArr)) →
      (∀ q, fs q = .missing) →
      run (.obj fields) sources fs cwd = .ok []) := by
  refine ⟨?_, ?_, ?_, ?_⟩
  · intro fields config restCfgs sources fs cwd hconfigs hcc hcp hs
    rw [run_obj fields config restCfgs sources fs cwd hconfigs]
    simp [processConfig, hcc, generateEntries, if_neg hs, hcp]
  · intro entries sources fs cwd
    rfl
  · intro fields config restCfgs first restArr sources fs cwd hconfigs hcp hcc hfirst
    rw [run_obj fields config restCfgs sources fs cwd hconfigs]
    simp [processConfig, hcc, Json.as_array, hfirst]
  · intro fields config restCfgs p restArr sources fs cwd hconfigs hcp hcc hfs
    rw [run_obj fields config restCfgs sources fs cwd hconfigs]
    simp only [processConfig, hcc, Json.as_array, Json.is_string, if_true]
    exact mergeReferenced_all_missing fs hfs (.str p :: restArr)

/-- C7 witness: one instance of each of the four parts — a configuration with
no `compilerPath` fails only in the GENERATE instance. -/
theorem compilerPath_checked_only_in_generate_witness :
    run (.obj [("configurations", .arr [.obj [("cppStandard", .str "c11")]])])
      ["main.c"] (fun _ => .missing) "." = .error .missingCompilerPath ∧
    run (.arr [.obj [("file", .str "a.c")]]) ["main.c"] (fun _ => .missing) "." =
      .ok [.obj [("file", .str "a.c")]] ∧
    run (.obj [("configurations", .arr [.obj [("compileCommands",
        .arr [.obj [("file", .str "a.c")]])]])]) [] (fun _ => .missing) "." =
      .ok [.obj [("file", .str "a.c")]] ∧
    run (.obj [("configurations", .arr [.obj [("compileCommands",
        .arr [.str "db.json"])]])]) [] (fun _ => .missing) "." = .ok [] :=
  ⟨compilerPath_checked_only_in_generate.1 _ _ _ _ _ _ rfl rfl rfl (by decide),
    compilerPath_checked_only_in_generate.2.1 _ _ _ _,
    compilerPath_checked_only_in_generate.2.2.1 _ _ _ _ _ _ _ _ rfl rfl rfl rfl,
    compilerPath_checked_only_in_generate.2.2.2 _ _ _ _ _ _ _ _ rfl rfl rfl
      (fun _ => rfl)⟩

end GenComp
